import Mathlib

/-!
Verification of `prototype.py` (sacho-re)

Shallow embedding of the MIDI-triggered pre-roll video recorder in
`src/prototype.py`.  The concurrent program (capture thread, encode worker,
orchestrator loop) is modelled as pure transition functions over explicit
state records; each locked region of the source becomes one atomic step.
External collaborators (OpenCV camera, PyAV encoder/muxer, rtmidi device,
the filesystem) are abstracted: frames are opaque payloads, the
encoder/muxer handles carried in each session dict are dropped (their use is
pure I/O), and an encode/finalize attempt is parametrised by a boolean `ok`
saying whether the external library raised an exception.
-/

/-- A captured frame.  The image payload is opaque to the recorder logic
(it is only moved between the deque, the task queue and the encoder), so we
model it by a natural-number identity. -/
abbrev Frame := Nat

/-- The `datetime.now()` value stored as a session's `start_time`
(`prototype.py` line 343); only the fields used by `strftime` in
`_finalize_recording` are kept. -/
structure DateTime where
  year : Nat
  month : Nat
  day : Nat
  hour : Nat
  minute : Nat
  second : Nat
deriving DecidableEq, Repr

/-- One entry of `self.active_recordings` (`prototype.py` line 137):
`recording_id -> {'container', 'stream', 'start_time', 'buffer',
'frame_count'}`.  The `container`/`stream`/`buffer` handles are external
PyAV/BytesIO objects with no recorder-visible state, so only `start_time`
and `frame_count` are modelled. -/
structure RecordingData where
  start_time : DateTime
  frame_count : Nat
deriving DecidableEq, Repr

/-- A task on `self.encoding_queue` (`prototype.py` lines 260-264, 382-386,
402-412): a dict with `'type'` either `'encode_frames'` (carrying `frames`
and `recording_id`) or `'finalize_recording'` (carrying `recording_id`).
The `recording_id` field is `self.current_recording_id` at enqueue time,
which is `None` or an integer, hence `Option Nat`. -/
inductive EncodeTask where
  | encodeFrames (recording_id : Option Nat) (frames : List Frame)
  | finalizeRecording (recording_id : Option Nat)
deriving DecidableEq, Repr

/-- The mutable state of a `VideoRecorder` instance: the fields of
`prototype.py` lines 131-223 that the recorder logic reads or writes.
`buffer_size = int(fps * preroll_seconds)` and `fps` are fixed at
construction; `frame_buffer` is the `deque(maxlen=buffer_size)` listed
oldest first; `encoding_queue` is the FIFO task queue, newest last. -/
structure RecorderState where
  recording : Bool
  frame_buffer : List Frame
  buffer_size : Nat
  fps : Nat
  active_recordings : Nat → Option RecordingData
  next_recording_id : Nat
  current_recording_id : Option Nat
  encoding_queue : List EncodeTask

/-- Python `deque.append` on a deque with `maxlen = cap` (the `frame_buffer` of
`prototype.py` line 214): append at the right, then evict from the left
whatever exceeds the capacity. -/
def dequeAppend (cap : Nat) (buf : List Frame) (f : Frame) : List Frame :=
  let b := buf ++ [f]
  b.drop (b.length - cap)

/-- First half of `VideoRecorder.start_recording` (`prototype.py` lines
338-367): reserve `recording_id = self.next_recording_id`, bump the
counter, build the container/stream (external), and register the session
in `self.active_recordings` with `frame_count = 0` under `encode_lock`.
The capture-side state (`recording`, `current_recording_id`,
`frame_buffer`) is untouched by this stage. -/
def start_register_stage (now : DateTime) (s : RecorderState) : RecorderState :=
  let recording_id := s.next_recording_id
  { s with
    next_recording_id := s.next_recording_id + 1
    active_recordings := fun k =>
      if k = recording_id then some { start_time := now, frame_count := 0 }
      else s.active_recordings k }

/-- Second half of `VideoRecorder.start_recording` (`prototype.py` lines
369-386): under the capture lock set `recording = True` and
`current_recording_id`, snapshot and clear the pre-roll buffer; after
releasing the lock enqueue the snapshot as an `encode_frames` task iff it
is non-empty. -/
def start_flip_stage (recording_id : Nat) (s : RecorderState) : RecorderState :=
  let frames_to_encode := s.frame_buffer
  let s2 := { s with
    recording := true
    current_recording_id := some recording_id
    frame_buffer := ([] : List Frame) }
  if frames_to_encode.isEmpty then s2
  else { s2 with
    encoding_queue := s2.encoding_queue ++
      [EncodeTask.encodeFrames (some recording_id) frames_to_encode] }

/-- Method `VideoRecorder.start_recording` (`prototype.py` lines 330-387):
no-op when already recording; otherwise the register stage followed by the
flip-and-snapshot stage, with the fresh id threaded between them. -/
def start_recording (now : DateTime) (s : RecorderState) : RecorderState :=
  if s.recording then s
  else start_flip_stage s.next_recording_id (start_register_stage now s)

/-- Method `VideoRecorder.stop_recording` (`prototype.py` lines 389-415): no-op
when not recording; otherwise, under one locked region, enqueue the
buffered frames as a final `encode_frames` task (iff the buffer is
non-empty), enqueue `finalize_recording`, and clear `recording` and
`current_recording_id`.  Note the buffer itself is not cleared. -/
def stop_recording (s : RecorderState) : RecorderState :=
  if !s.recording then s
  else
    let recording_id := s.current_recording_id
    let q1 :=
      if s.frame_buffer.length > 0 then
        s.encoding_queue ++ [EncodeTask.encodeFrames recording_id s.frame_buffer]
      else s.encoding_queue
    { s with
      encoding_queue := q1 ++ [EncodeTask.finalizeRecording recording_id]
      recording := false
      current_recording_id := none }

/-- One iteration of `VideoRecorder._capture_frames` (`prototype.py` lines
241-266) in which `self.capture.read()` returned frame `f`: under the
capture lock, if recording and the buffer has reached capacity, swap the
buffer out and remember its contents; append the new frame to the
(possibly fresh) deque; outside the lock, enqueue the swapped-out frames
(a non-empty list is truthy) tagged with `self.current_recording_id`. -/
def capture_step (s : RecorderState) (f : Frame) : RecorderState :=
  if s.recording && decide (s.buffer_size ≤ s.frame_buffer.length) then
    let frames_to_encode := s.frame_buffer
    let s1 := { s with frame_buffer := dequeAppend s.buffer_size [] f }
    if frames_to_encode.isEmpty then s1
    else { s1 with
      encoding_queue := s1.encoding_queue ++
        [EncodeTask.encodeFrames s.current_recording_id frames_to_encode] }
  else
    { s with frame_buffer := dequeAppend s.buffer_size s.frame_buffer f }

/-- A frame as handed to the encoder in `VideoRecorder._encode_frames`
(`prototype.py` lines 305-311): the payload plus the presentation
timestamp `pts = frame_count + i` and the time base
`Fraction(1, self.fps)` stored as numerator/denominator. -/
structure Stamped where
  pts : Nat
  tb_num : Nat
  tb_den : Nat
  frame : Frame
deriving DecidableEq, Repr

/-- The timestamp assignment loop of `_encode_frames` (`prototype.py`
lines 305-311): frame `i` of a batch gets `pts = frame_count + i` and
time base `1 / fps`. -/
def stampFrames (fps : Nat) (frame_count : Nat) (frames : List Frame) : List Stamped :=
  frames.enum.map fun p =>
    { pts := frame_count + p.1, tb_num := 1, tb_den := fps, frame := p.2 }

/-- Dictionary membership test `recording_id in self.active_recordings`
for the `Option Nat` ids carried by tasks: `None` is never a key of the
int-keyed dict. -/
def lookupRecording (m : Nat → Option RecordingData) :
    Option Nat → Option RecordingData
  | none => none
  | some id => m id

/-- Method `VideoRecorder._encode_frames` (`prototype.py` lines 286-328).
Empty batches return immediately; an id absent from
`active_recordings` drops the batch (log only); otherwise the batch is
stamped starting at the session's `frame_count` and muxed, and
`frame_count` is advanced by the batch length.  `ok = false` models
`stream.encode`/`container.mux` raising: the exception is caught by the
`except` clause, so the `frame_count` update (which sits after the encode
loop inside the `try`) never runs and the batch is dropped.  The second
component is the list of frames muxed into the session, tagged with its
id. -/
def encode_frames (ok : Bool) (s : RecorderState) (frames : List Frame)
    (recording_id : Option Nat) : RecorderState × List (Nat × Stamped) :=
  if frames.isEmpty then (s, [])
  else
    match recording_id with
    | none => (s, [])
    | some id =>
      match s.active_recordings id with
      | none => (s, [])
      | some rd =>
        if ok then
          ({ s with active_recordings := fun k =>
              if k = id then
                some { rd with frame_count := rd.frame_count + frames.length }
              else s.active_recordings k },
           (stampFrames s.fps rd.frame_count frames).map fun st => (id, st))
        else (s, [])

/-- The output directory hard-coded at `prototype.py` lines 226 and 444. -/
def video_recordings_dir : String := "C:/Users/shayan/Desktop/piano/video_recordings"

/-- Zero-padded two-digit `strftime` field (`%m`, `%d`, `%H`, `%M`, `%S`). -/
def pad2 (n : Nat) : String :=
  if n < 10 then "0" ++ toString n else toString n

/-- Zero-padded four-digit `strftime` field (`%Y`). -/
def pad4 (n : Nat) : String :=
  if n < 10 then "000" ++ toString n
  else if n < 100 then "00" ++ toString n
  else if n < 1000 then "0" ++ toString n
  else toString n

/-- The call `recording_start_time.strftime("110bpm---%Y-%m-%d---%H-%M-%S")`
(`prototype.py` line 443). -/
def strftime_session (d : DateTime) : String :=
  "110bpm---" ++ pad4 d.year ++ "-" ++ pad2 d.month ++ "-" ++ pad2 d.day ++
    "---" ++ pad2 d.hour ++ "-" ++ pad2 d.minute ++ "-" ++ pad2 d.second

/-- The output path of `prototype.py` line 444. -/
def video_file (d : DateTime) : String :=
  video_recordings_dir ++ "/" ++ strftime_session d ++ ".mp4"

/-- The successful result of `_finalize_recording`: the file written at
`prototype.py` lines 447-448 (path and the session's final frame count
as logged on line 452). -/
structure FileWrite where
  path : String
  frames_logged : Nat
deriving DecidableEq, Repr

/-- Method `VideoRecorder._finalize_recording` (`prototype.py` lines 417-457).
An id absent from `active_recordings` is a no-op (log only).  Otherwise
the session is deleted from the map *inside* the first locked region,
before the encoder flush/close/file write are attempted; `ok = false`
models any of those later steps raising, which the surrounding `try`
catches — the deletion has already happened, and no file is produced. -/
def finalize_recording (ok : Bool) (s : RecorderState)
    (recording_id : Option Nat) : RecorderState × Option FileWrite :=
  match recording_id with
  | none => (s, none)
  | some id =>
    match s.active_recordings id with
    | none => (s, none)
    | some rd =>
      let s1 := { s with active_recordings := fun k =>
        if k = id then none else s.active_recordings k }
      if ok then
        (s1, some { path := video_file rd.start_time, frames_logged := rd.frame_count })
      else (s1, none)

/-- The task dispatch of `VideoRecorder._encoding_worker` (`prototype.py`
lines 275-278) for one dequeued task, with `ok` saying whether the
external encoder/muxer/filesystem calls inside it succeed. -/
def process_task (ok : Bool) (s : RecorderState) :
    EncodeTask → RecorderState × List (Nat × Stamped)
  | EncodeTask.encodeFrames rid frames => encode_frames ok s frames rid
  | EncodeTask.finalizeRecording rid => ((finalize_recording ok s rid).1, [])

/-- Method `VideoRecorder._encoding_worker` (`prototype.py` lines 268-284) run
over a list of queued tasks, each paired with the success flag of its
external calls: tasks are processed strictly in FIFO order by the single
consumer, and the per-session muxed frames are accumulated in order. -/
def run_worker (s : RecorderState) :
    List (EncodeTask × Bool) → RecorderState × List (Nat × Stamped)
  | [] => (s, [])
  | (t, ok) :: rest =>
    let r := process_task ok s t
    let r2 := run_worker r.1 rest
    (r2.1, r.2 ++ r2.2)

/-- The mutable state of `MidiListener` (`prototype.py` lines 63-66) read
or written by the callback and the main loop.  `last_event_time` holds a
`time.time()` wall-clock value (strictly positive in practice, so Python
truthiness of the field coincides with it being non-`None`), modelled as
a natural number of seconds. -/
structure MidiState where
  pedal_pressed : Bool
  note_event_occurred : Bool
  last_event_time : Option Nat
deriving DecidableEq, Repr

/-- A pedal transition as logged by `midi_callback` ("Pedal pressed" /
"Pedal released"). -/
inductive PedalTransition where
  | pressed
  | released
deriving DecidableEq, Repr

/-- Method `MidiListener.midi_callback` (`prototype.py` lines 84-111) on a raw
MIDI message received at wall-clock time `now`, returning the new state
and the pedal transition it logs, if any.  Status byte 176 with
controller 64 is the sustain pedal; values below the noise threshold 40
release it only when it was pressed; values at or above 40 mark it
pressed, raise the note-event flag and stamp `last_event_time`.  A status
byte with high nibble `0x90` is note-on. -/
def midi_callback (now : Nat) (msg : List Nat) (s : MidiState) :
    MidiState × Option PedalTransition :=
  if 3 ≤ msg.length ∧ msg.getD 0 0 = 176 ∧ msg.getD 1 0 = 64 then
    let pedal_value := msg.getD 2 0
    if pedal_value < 40 then
      if s.pedal_pressed then
        ({ s with last_event_time := some now, pedal_pressed := false },
         some PedalTransition.released)
      else (s, none)
    else
      let r := if !s.pedal_pressed then
          ({ s with pedal_pressed := true }, some PedalTransition.pressed)
        else (s, none)
      ({ r.1 with note_event_occurred := true, last_event_time := some now }, r.2)
  else if Nat.land (msg.getD 0 0) 0xF0 = 0x90 then
    ({ s with note_event_occurred := true, last_event_time := some now }, none)
  else (s, none)

/-- Method `MidiListener.check_and_clear_event` (`prototype.py` lines 113-118):
report and clear the note-event flag. -/
def check_and_clear_event (s : MidiState) : MidiState × Bool :=
  if s.note_event_occurred then ({ s with note_event_occurred := false }, true)
  else (s, false)

/-- The stop test of the `__main__` loop (`prototype.py` lines 509-510):
`video_recorder.recording and midi_listener.last_event_time` (a stored
`time.time()` is truthy exactly when present) and then
`not midi_listener.pedal_pressed and time.time() - midi_listener.last_event_time > 7`,
with 7 the hard-coded linger.  Python's float subtraction on wall-clock
times with `now ≥ t` agrees with truncated `Nat` subtraction here, and
for `now < t` both sides make the comparison false. -/
def stop_decision (now : Nat) (m : MidiState) (recording : Bool) : Bool :=
  recording &&
    match m.last_event_time with
    | none => false
    | some t => !m.pedal_pressed && decide (7 < now - t)

/-- The stop branch of the `__main__` loop (`prototype.py` lines 509-513):
when `stop_decision` holds, call `stop_recording` and then drain residual
pulses with `while midi_listener.check_and_clear_event(): pass`, which
leaves `note_event_occurred = False`. -/
def orchestrator_stop_step (now : Nat) (m : MidiState) (r : RecorderState) :
    MidiState × RecorderState :=
  if stop_decision now m r.recording then
    ({ m with note_event_occurred := false }, stop_recording r)
  else (m, r)

/-- The frames destined for session `n` carried by a task list, in queue
order: the concatenation of the payloads of its `encode_frames` tasks
tagged `some n`. -/
def framesFor (n : Nat) (q : List EncodeTask) : List Frame :=
  (q.map fun t =>
    match t with
    | EncodeTask.encodeFrames (some m) L => if m = n then L else []
    | _ => []).flatten

/-- Observation of the encode worker: drain the recorder's whole task
queue in FIFO order with every external encoder/muxer call succeeding,
and collect the muxed, timestamped frames (each tagged with its session
id) in mux order. -/
def session_mux_output (s : RecorderState) : List (Nat × Stamped) :=
  (run_worker s (s.encoding_queue.map fun t => (t, true))).2

/-- One whole recording run as driven by the orchestrator: start a
session, capture the live frames `F` one iteration each, then stop. -/
def record_session_run (d : DateTime) (s : RecorderState) (F : List Frame) :
    RecorderState :=
  stop_recording (F.foldl capture_step (start_recording d s))

lemma dequeAppend_of_lt (cap : Nat) (buf : List Frame) (f : Frame)
    (h : buf.length < cap) : dequeAppend cap buf f = buf ++ [f] := by
  have h0 : buf.length + 1 - cap = 0 := by omega
  simp [dequeAppend, h0]

lemma foldl_dequeAppend (cap : Nat) (F : List Frame) :
    F.foldl (dequeAppend cap) [] = F.drop (F.length - cap) := by
  induction F using List.reverseRecOn with
  | nil => simp
  | append_singleton F f ih =>
    rw [List.foldl_append, List.foldl_cons, List.foldl_nil, ih]
    simp only [dequeAppend, List.length_append, List.length_drop,
      List.length_cons, List.length_nil]
    rcases Nat.lt_or_ge F.length cap with h | h
    · have e0 : F.length - cap = 0 := by omega
      simp [e0]
    · have e1 : F.length - (F.length - cap) = cap := by omega
      rw [e1]
      rcases Nat.eq_zero_or_pos cap with hc | hc
    
      · subst hc
        simp
      · have hle : 1 ≤ (F.drop (F.length - cap)).length := by
          rw [List.length_drop]; omega
        have e2 : cap + 1 - cap = 1 := by omega
        rw [e2, List.drop_append_of_le_length hle, List.drop_drop]
        have hle2 : F.length - cap + 1 ≤ F.length := by omega
        have e3 : F.length + 1 - cap = F.length - cap + 1 := by omega
        rw [e3, List.drop_append_of_le_length hle2]

lemma capture_step_not_recording (s : RecorderState) (f : Frame)
    (h : s.recording = false) :
    capture_step s f =
      { s with frame_buffer := dequeAppend s.buffer_size s.frame_buffer f } := by
  simp [capture_step, h]

lemma foldl_capture_not_recording (F : List Frame) (s : RecorderState)
    (h : s.recording = false) :
    F.foldl capture_step s =
      { s with frame_buffer := F.foldl (dequeAppend s.buffer_size) s.frame_buffer } := by
  induction F generalizing s with
  | nil => simp
  | cons f F ih =>
    rw [List.foldl_cons, capture_step_not_recording s f h, List.foldl_cons]
    exact ih _ h

/-- C5: after any sequence of `n` frame pushes with recording inactive
(starting from an empty buffer), the pre-roll buffer's length equals
`min capacity n` with `capacity = fps * preroll_seconds` (3 s), its
contents are exactly the `min capacity n` most recently pushed frames in
push order (the length-`min capacity n` suffix of the pushes), and no
task is enqueued. -/
theorem C5_preroll_invariant (s0 : RecorderState) (F : List Frame)
    (hrec : s0.recording = false) (hbuf : s0.frame_buffer = [])
    (hsz : s0.buffer_size = s0.fps * 3) :
    (F.foldl capture_step s0).frame_buffer.length = min (s0.fps * 3) F.length ∧
    (F.foldl capture_step s0).frame_buffer = F.drop (F.length - s0.fps * 3) ∧
    (F.foldl capture_step s0).encoding_queue = s0.encoding_queue := by
  rw [foldl_capture_not_recording F s0 hrec]
  simp only [hbuf, foldl_dequeAppend, hsz, List.length_drop]
  refine ⟨by omega, by simp, by simp⟩

/-- C5 witness: fps 1, capacity 3, five pushes keep the last three. -/
theorem C5_preroll_invariant_witness :
    (([5, 6, 7, 8, 9] : List Frame).foldl capture_step
        { recording := false, frame_buffer := [], buffer_size := 3, fps := 1,
          active_recordings := fun _ => none, next_recording_id := 0,
          current_recording_id := none,
          encoding_queue := [] }).frame_buffer.length = min (1 * 3) 5 ∧
    (([5, 6, 7, 8, 9] : List Frame).foldl capture_step
        { recording := false, frame_buffer := [], buffer_size := 3, fps := 1,
          active_recordings := fun _ => none, next_recording_id := 0,
          current_recording_id := none,
          encoding_queue := [] }).frame_buffer = [7, 8, 9] :=
  have h := C5_preroll_invariant
    { recording := false, frame_buffer := [], buffer_size := 3, fps := 1,
      active_recordings := fun _ => none, next_recording_id := 0,
      current_recording_id := none, encoding_queue := [] }
    [5, 6, 7, 8, 9] rfl rfl rfl
  ⟨h.1, h.2.1⟩

/-- C6: in a capture iteration that obtains frame `f`, if recording is
active and the buffer has reached its (positive) capacity, the entire
buffer contents are removed as one batch and enqueued as a single
`encode_frames` task for the current session and the new frame becomes the
sole occupant of the fresh buffer; if recording is inactive or the buffer
is below capacity, no task is produced and the frame is simply appended
with the deque discipline. -/
theorem C6_drain_on_full (s : RecorderState) (f : Frame) :
    (s.recording = true → s.frame_buffer.length = s.buffer_size →
      0 < s.buffer_size →
      capture_step s f = { s with
        frame_buffer := [f],
        encoding_queue := s.encoding_queue ++
          [EncodeTask.encodeFrames s.current_recording_id s.frame_buffer] }) ∧
    (s.recording = false ∨ s.frame_buffer.length < s.buffer_size →
      capture_step s f =
        { s with frame_buffer := dequeAppend s.buffer_size s.frame_buffer f }) := by
  constructor
  · intro hrec hlen hpos
    have hne : s.frame_buffer.isEmpty = false := by
      cases hb : s.frame_buffer with
      | nil => rw [hb] at hlen; simp at hlen; omega
      | cons a l => simp [hb]
    have happ : dequeAppend s.buffer_size [] f = [f] := by
      have h0 : (0 : Nat) < s.buffer_size := hpos
      have := dequeAppend_of_lt s.buffer_size [] f (by simpa using h0)
      simpa using this
    simp [capture_step, hrec, hlen, hne, happ]
  · rintro (hrec | hlt)
    · simp [capture_step, hrec]
    · have hcond : (s.buffer_size ≤ s.frame_buffer.length) = False := by
        simp; omega
      simp [capture_step, hcond]

/-- C6 witness: with capacity 2 full buffer `[1, 2]` and recording
active, the step drains `[1, 2]` into one task and restarts the buffer
with the new frame; the same state below capacity just appends. -/
theorem C6_drain_on_full_witness :
    capture_step
        { recording := true, frame_buffer := [1, 2], buffer_size := 2, fps := 30,
          active_recordings := fun _ => none, next_recording_id := 1,
          current_recording_id := some 0, encoding_queue := [] } 7 =
      { recording := true, frame_buffer := [7], buffer_size := 2, fps := 30,
        active_recordings := fun _ => none, next_recording_id := 1,
        current_recording_id := some 0,
        encoding_queue := [EncodeTask.encodeFrames (some 0) [1, 2]] } ∧
    capture_step
        { recording := true, frame_buffer := [1], buffer_size := 2, fps := 30,
          active_recordings := fun _ => none, next_recording_id := 1,
          current_recording_id := some 0, encoding_queue := [] } 7 =
      { recording := true, frame_buffer := [1, 7], buffer_size := 2, fps := 30,
        active_recordings := fun _ => none, next_recording_id := 1,
        current_recording_id := some 0, encoding_queue := [] } := by
  constructor
  · have h := (C6_drain_on_full
      { recording := true, frame_buffer := [1, 2], buffer_size := 2, fps := 30,
        active_recordings := fun _ => none, next_recording_id := 1,
        current_recording_id := some 0, encoding_queue := [] } 7).1
      rfl rfl (by decide)
    exact h
  · have h := (C6_drain_on_full
      { recording := true, frame_buffer := [1], buffer_size := 2, fps := 30,
        active_recordings := fun _ => none, next_recording_id := 1,
        current_recording_id := some 0, encoding_queue := [] } 7).2
      (Or.inr (by decide))
    rw [h]
    rfl


lemma start_flip_stage_spec (rid : Nat) (s : RecorderState) :
    (start_flip_stage rid s).recording = true ∧
    (start_flip_stage rid s).current_recording_id = some rid ∧
    (start_flip_stage rid s).frame_buffer = [] ∧
    (start_flip_stage rid s).active_recordings = s.active_recordings ∧
    (start_flip_stage rid s).next_recording_id = s.next_recording_id ∧
    (s.frame_buffer ≠ [] → (start_flip_stage rid s).encoding_queue =
      s.encoding_queue ++ [EncodeTask.encodeFrames (some rid) s.frame_buffer]) ∧
    (s.frame_buffer = [] →
      (start_flip_stage rid s).encoding_queue = s.encoding_queue) ∧
    (start_flip_stage rid s).fps = s.fps ∧
    (start_flip_stage rid s).buffer_size = s.buffer_size := by
  by_cases he : s.frame_buffer.isEmpty
  · have hb : s.frame_buffer = [] := List.isEmpty_iff.mp he
    simp [start_flip_stage, he, hb]
  · have hb : s.frame_buffer ≠ [] := by
      intro h0
      rw [h0] at he
      exact he rfl
    simp [start_flip_stage, he, hb]

lemma start_recording_spec (s : RecorderState) (d : DateTime)
    (h : s.recording = false) :
    start_recording d s =
      start_flip_stage s.next_recording_id (start_register_stage d s) ∧
    (start_register_stage d s).recording = false ∧
    (start_register_stage d s).active_recordings s.next_recording_id =
      some { start_time := d, frame_count := 0 } ∧
    (start_recording d s).next_recording_id = s.next_recording_id + 1 ∧
    (start_recording d s).recording = true ∧
    (start_recording d s).current_recording_id = some s.next_recording_id ∧
    (start_recording d s).frame_buffer = [] ∧
    (start_recording d s).active_recordings s.next_recording_id =
      some { start_time := d, frame_count := 0 } ∧
    (∀ k, k ≠ s.next_recording_id →
      (start_recording d s).active_recordings k = s.active_recordings k) ∧
    (s.frame_buffer ≠ [] →
      (start_recording d s).encoding_queue = s.encoding_queue ++
        [EncodeTask.encodeFrames (some s.next_recording_id) s.frame_buffer]) ∧
    (s.frame_buffer = [] →
      (start_recording d s).encoding_queue = s.encoding_queue) ∧
    (start_recording d s).fps = s.fps ∧
    (start_recording d s).buffer_size = s.buffer_size := by
  have hmain : start_recording d s =
      start_flip_stage s.next_recording_id (start_register_stage d s) := by
    simp [start_recording, h]
  have hflip := start_flip_stage_spec s.next_recording_id (start_register_stage d s)
  have hregmap : ∀ k, (start_register_stage d s).active_recordings k =
      if k = s.next_recording_id then some { start_time := d, frame_count := 0 }
      else s.active_recordings k := fun k => rfl
  refine ⟨hmain, h, by rw [hregmap]; simp, ?_, ?_, ?_, ?_, ?_, ?_, ?_, ?_, ?_, ?_⟩ <;>
    rw [hmain]
  · exact hflip.2.2.2.2.1
  · exact hflip.1
  · exact hflip.2.1
  · exact hflip.2.2.1
  · rw [hflip.2.2.2.1, hregmap]
    simp
  · intro k hk
    rw [hflip.2.2.2.1, hregmap]
    simp [hk]
  · intro hne
    exact hflip.2.2.2.2.2.1 hne
  · intro he
    exact hflip.2.2.2.2.2.2.1 he
  · exact hflip.2.2.2.2.2.2.2.1
  · exact hflip.2.2.2.2.2.2.2.2

lemma stop_recording_spec (s : RecorderState) (h : s.recording = true) :
    (stop_recording s).recording = false ∧
    (stop_recording s).current_recording_id = none ∧
    (s.frame_buffer ≠ [] →
      (stop_recording s).encoding_queue = s.encoding_queue ++
        [EncodeTask.encodeFrames s.current_recording_id s.frame_buffer,
         EncodeTask.finalizeRecording s.current_recording_id]) ∧
    (s.frame_buffer = [] →
      (stop_recording s).encoding_queue = s.encoding_queue ++
        [EncodeTask.finalizeRecording s.current_recording_id]) ∧
    (stop_recording s).frame_buffer = s.frame_buffer ∧
    (stop_recording s).active_recordings = s.active_recordings ∧
    (stop_recording s).next_recording_id = s.next_recording_id ∧
    (stop_recording s).fps = s.fps ∧
    (stop_recording s).buffer_size = s.buffer_size := by
  refine ⟨by simp [stop_recording, h], by simp [stop_recording, h], ?_, ?_,
    by simp [stop_recording, h], by simp [stop_recording, h],
    by simp [stop_recording, h], by simp [stop_recording, h],
    by simp [stop_recording, h]⟩
  · intro hne
    have hpos : 0 < s.frame_buffer.length := List.length_pos.mpr hne
    simp [stop_recording, h, hpos]
  · intro he
    simp [stop_recording, h, he]

/-- C2: `start_recording` is a no-op when a session is already active.
Otherwise it allocates the fresh id `next_recording_id` (bumping the
counter), registers the session with `frame_count = 0` in a first stage
that does not yet flip the recording flag, then flips `recording` and
`current_recording_id`, empties the pre-roll buffer, enqueues its
snapshot as the session's first task iff the snapshot is non-empty, and
leaves every other session's entry untouched. -/
theorem C2_start_recording (s : RecorderState) (d : DateTime) :
    (s.recording = true → start_recording d s = s) ∧
    (s.recording = false →
      start_recording d s =
        start_flip_stage s.next_recording_id (start_register_stage d s) ∧
      (start_register_stage d s).recording = false ∧
      (start_register_stage d s).active_recordings s.next_recording_id =
        some { start_time := d, frame_count := 0 } ∧
      (start_recording d s).next_recording_id = s.next_recording_id + 1 ∧
      (start_recording d s).recording = true ∧
      (start_recording d s).current_recording_id = some s.next_recording_id ∧
      (start_recording d s).frame_buffer = [] ∧
      (start_recording d s).active_recordings s.next_recording_id =
        some { start_time := d, frame_count := 0 } ∧
      (∀ k, k ≠ s.next_recording_id →
        (start_recording d s).active_recordings k = s.active_recordings k) ∧
      (s.frame_buffer ≠ [] →
        (start_recording d s).encoding_queue = s.encoding_queue ++
          [EncodeTask.encodeFrames (some s.next_recording_id) s.frame_buffer]) ∧
      (s.frame_buffer = [] →
        (start_recording d s).encoding_queue = s.encoding_queue)) := by
  constructor
  · intro h
    simp [start_recording, h]
  · intro h
    have hs := start_recording_spec s d h
    exact ⟨hs.1, hs.2.1, hs.2.2.1, hs.2.2.2.1, hs.2.2.2.2.1, hs.2.2.2.2.2.1,
      hs.2.2.2.2.2.2.1, hs.2.2.2.2.2.2.2.1, hs.2.2.2.2.2.2.2.2.1,
      hs.2.2.2.2.2.2.2.2.2.1, hs.2.2.2.2.2.2.2.2.2.2.1⟩

/-- C2 witness: an idle recorder with one pre-rolled frame starts session
8, snapshots the frame as the first task, and leaves the entry of the
still-draining session 7 (55 frames already encoded) untouched. -/
theorem C2_start_recording_witness :
    (start_recording ⟨2026, 10, 12, 1, 2, 3⟩
        ⟨false, [42], 3, 30,
          (fun k => if k = 7 then some ⟨⟨2026, 10, 12, 0, 0, 0⟩, 55⟩ else none),
          8, none, []⟩).encoding_queue =
      [EncodeTask.encodeFrames (some 8) [42]] ∧
    (start_recording ⟨2026, 10, 12, 1, 2, 3⟩
        ⟨false, [42], 3, 30,
          (fun k => if k = 7 then some ⟨⟨2026, 10, 12, 0, 0, 0⟩, 55⟩ else none),
          8, none, []⟩).active_recordings 7 =
      some ⟨⟨2026, 10, 12, 0, 0, 0⟩, 55⟩ := by
  have h := (C2_start_recording
    ⟨false, [42], 3, 30,
      (fun k => if k = 7 then some ⟨⟨2026, 10, 12, 0, 0, 0⟩, 55⟩ else none),
      8, none, []⟩ ⟨2026, 10, 12, 1, 2, 3⟩).2 rfl
  constructor
  · have hq := h.2.2.2.2.2.2.2.2.2.1 (by decide)
    simpa using hq
  · have h7 := h.2.2.2.2.2.2.2.2.1 7 (by decide)
    simpa using h7

/-- C3: `stop_recording` is a no-op when not recording; otherwise, in one
locked region, it enqueues for the session that was current one
`encode_frames` task holding exactly the buffered frames (iff the buffer
is non-empty) followed by one `finalize_recording` task, and clears the
recording flag and `current_recording_id`; the buffer, session map and
id counter are untouched. -/
theorem C3_stop_recording (s : RecorderState) :
    (s.recording = false → stop_recording s = s) ∧
    (s.recording = true →
      (stop_recording s).recording = false ∧
      (stop_recording s).current_recording_id = none ∧
      (s.frame_buffer ≠ [] →
        (stop_recording s).encoding_queue = s.encoding_queue ++
          [EncodeTask.encodeFrames s.current_recording_id s.frame_buffer,
           EncodeTask.finalizeRecording s.current_recording_id]) ∧
      (s.frame_buffer = [] →
        (stop_recording s).encoding_queue = s.encoding_queue ++
          [EncodeTask.finalizeRecording s.current_recording_id]) ∧
      (stop_recording s).frame_buffer = s.frame_buffer ∧
      (stop_recording s).active_recordings = s.active_recordings ∧
      (stop_recording s).next_recording_id = s.next_recording_id) := by
  constructor
  · intro h
    simp [stop_recording, h]
  · intro h
    have hs := stop_recording_spec s h
    exact ⟨hs.1, hs.2.1, hs.2.2.1, hs.2.2.2.1, hs.2.2.2.2.1, hs.2.2.2.2.2.1,
      hs.2.2.2.2.2.2.1⟩

/-- C3 witness: stopping a recorder with 2 buffered frames enqueues the
flush batch then the finalize task, in that order, and clears the flag. -/
theorem C3_stop_recording_witness :
    (stop_recording
        ⟨true, [3, 4], 5, 30, (fun _ => none), 1, some 0, []⟩).encoding_queue =
      [EncodeTask.encodeFrames (some 0) [3, 4],
       EncodeTask.finalizeRecording (some 0)] ∧
    (stop_recording
        ⟨true, [3, 4], 5, 30, (fun _ => none), 1, some 0, []⟩).recording = false := by
  have h := (C3_stop_recording
    ⟨true, [3, 4], 5, 30, (fun _ => none), 1, some 0, []⟩).2 rfl
  exact ⟨by simpa using h.2.2.1 (by decide), h.1⟩

/-- C10: `stop_recording` does not clear the pre-roll buffer — the frames
it copies into the final flush task are still buffered afterwards, so a
`start_recording` issued before those frames are evicted snapshots the
same frames again into the new session's first task: they appear in both
sessions' batches. -/
theorem C10_stop_keeps_buffer (s : RecorderState) (d : DateTime)
    (hrec : s.recording = true) (hbuf : s.frame_buffer ≠ []) :
    (stop_recording s).frame_buffer = s.frame_buffer ∧
    (stop_recording s).encoding_queue = s.encoding_queue ++
      [EncodeTask.encodeFrames s.current_recording_id s.frame_buffer,
       EncodeTask.finalizeRecording s.current_recording_id] ∧
    (start_recording d (stop_recording s)).encoding_queue =
      (stop_recording s).encoding_queue ++
        [EncodeTask.encodeFrames (some s.next_recording_id) s.frame_buffer] := by
  have hstop := stop_recording_spec s hrec
  refine ⟨hstop.2.2.2.2.1, hstop.2.2.1 hbuf, ?_⟩
  have hstart := start_recording_spec (stop_recording s) d hstop.1
  have hq := hstart.2.2.2.2.2.2.2.2.2.1
  rw [hq (by rw [hstop.2.2.2.2.1]; exact hbuf), hstop.2.2.2.2.1,
    hstop.2.2.2.2.2.2.1]

/-- C10 witness: stopping with `[3, 4]` buffered then restarting enqueues
`[3, 4]` once for the old session 0 and again for the new session 1. -/
theorem C10_stop_keeps_buffer_witness :
    (stop_recording
        ⟨true, [3, 4], 5, 30, (fun _ => none), 1, some 0, []⟩).encoding_queue =
      [EncodeTask.encodeFrames (some 0) [3, 4],
       EncodeTask.finalizeRecording (some 0)] ∧
    (start_recording ⟨2026, 10, 12, 1, 2, 3⟩ (stop_recording
        ⟨true, [3, 4], 5, 30, (fun _ => none), 1, some 0, []⟩)).encoding_queue =
      [EncodeTask.encodeFrames (some 0) [3, 4],
       EncodeTask.finalizeRecording (some 0),
       EncodeTask.encodeFrames (some 1) [3, 4]] := by
  have h := C10_stop_keeps_buffer
    ⟨true, [3, 4], 5, 30, (fun _ => none), 1, some 0, []⟩
    ⟨2026, 10, 12, 1, 2, 3⟩ rfl (by decide)
  refine ⟨by simpa using h.2.1, ?_⟩
  rw [h.2.2, h.2.1]
  simp
/-- C4: debounce correctness of the sustain-pedal branch of
`midi_callback`.  For a `ControlChange(64, v)` message at time `now`: a
released transition is emitted iff the pedal was pressed and `v < 40`;
`v < 40` while already released changes nothing (filtered noise); any
`v ≥ 40` marks the pedal pressed, raises the note-event pulse and stamps
`last_event_time`, whatever the prior state; a release also stamps
`last_event_time` with the release time. -/
theorem C4_debounce (now : Nat) (v : Nat) (s : MidiState) :
    ((midi_callback now [176, 64, v] s).2 = some PedalTransition.released ↔
      (s.pedal_pressed = true ∧ v < 40)) ∧
    (v < 40 → s.pedal_pressed = false →
      midi_callback now [176, 64, v] s = (s, none)) ∧
    (40 ≤ v →
      (midi_callback now [176, 64, v] s).1.pedal_pressed = true ∧
      (midi_callback now [176, 64, v] s).1.note_event_occurred = true ∧
      (midi_callback now [176, 64, v] s).1.last_event_time = some now) ∧
    (v < 40 → s.pedal_pressed = true →
      (midi_callback now [176, 64, v] s).1.pedal_pressed = false ∧
      (midi_callback now [176, 64, v] s).1.last_event_time = some now) := by
  obtain ⟨p, ne, t⟩ := s
  by_cases hv : v < 40 <;> cases p <;>
    simp [midi_callback, hv, Nat.not_lt.mp, Nat.lt_irrefl]

/-- C4 witness: value 10 while pressed emits the release and stamps the
time; value 10 while released is a no-op; value 100 while released
presses, pulses and stamps. -/
theorem C4_debounce_witness :
    ((midi_callback 50 [176, 64, 10] ⟨true, false, none⟩).2 =
      some PedalTransition.released) ∧
    (midi_callback 50 [176, 64, 10] ⟨false, false, some 3⟩ =
      (⟨false, false, some 3⟩, none)) ∧
    ((midi_callback 50 [176, 64, 100] ⟨false, false, none⟩).1.pedal_pressed = true) := by
  refine ⟨?_, ?_, ?_⟩
  · exact (C4_debounce 50 10 ⟨true, false, none⟩).1.mpr ⟨rfl, by decide⟩
  · exact (C4_debounce 50 10 ⟨false, false, some 3⟩).2.1 (by decide) rfl
  · exact ((C4_debounce 50 100 ⟨false, false, none⟩).2.2.1 (by decide)).1

/-- C7: the orchestrator's stop test is true iff recording is active, the
pedal is not held, `last_event_time` is set to some `t`, and
`now - t > 7` (the hard-coded linger); when it fires, the step calls
`stop_recording` and drains residual pulses, so a subsequent
`check_and_clear_event` reports no pulse and cannot restart a recording. -/
theorem C7_stop_decision (now : Nat) (m : MidiState) (r : RecorderState) :
    (stop_decision now m r.recording = true ↔
      (r.recording = true ∧ m.pedal_pressed = false ∧
        ∃ t, m.last_event_time = some t ∧ 7 < now - t)) ∧
    (stop_decision now m r.recording = true →
      orchestrator_stop_step now m r =
        ({ m with note_event_occurred := false }, stop_recording r)) ∧
    (stop_decision now m r.recording = false →
      orchestrator_stop_step now m r = (m, r)) ∧
    (stop_decision now m r.recording = true →
      (orchestrator_stop_step now m r).1.note_event_occurred = false ∧
      check_and_clear_event (orchestrator_stop_step now m r).1 =
        ((orchestrator_stop_step now m r).1, false)) := by
  refine ⟨?_, ?_, ?_, ?_⟩
  · cases ht : m.last_event_time with
    | none => simp [stop_decision, ht]
    | some t => simp [stop_decision, ht]
  · intro h
    simp [orchestrator_stop_step, h]
  · intro h
    simp [orchestrator_stop_step, h]
  · intro h
    simp [orchestrator_stop_step, h, check_and_clear_event]

/-- C7 witness: recording, pedal up, last activity at 10, now 18
(18 - 10 > 7): the decision fires, the recorder is stopped and the pulse
flag is drained. -/
theorem C7_stop_decision_witness :
    (stop_decision 18 ⟨false, true, some 10⟩
      (RecorderState.recording ⟨true, [], 5, 30, (fun _ => none), 1, some 0, []⟩) = true) ∧
    ((orchestrator_stop_step 18 ⟨false, true, some 10⟩
      ⟨true, [], 5, 30, (fun _ => none), 1, some 0, []⟩).1.note_event_occurred = false) := by
  have h := C7_stop_decision 18 ⟨false, true, some 10⟩
    ⟨true, [], 5, 30, (fun _ => none), 1, some 0, []⟩
  have hd : stop_decision 18 ⟨false, true, some 10⟩
      (RecorderState.recording ⟨true, [], 5, 30, (fun _ => none), 1, some 0, []⟩) = true :=
    h.1.mpr ⟨rfl, rfl, 10, rfl, by decide⟩
  exact ⟨hd, (h.2.2.2 hd).1⟩

/-- C8: encode-worker error containment.  A batch whose `recording_id` is
absent from the live map (including `None`) is dropped with no state
change, whether or not the encoder would have succeeded; an encoder/muxer
exception (ok = false) is caught, leaves the whole recorder state — in
particular every session's `frame_count` — unchanged, and the worker loop
goes on to process the remaining tasks exactly as if the failed task had
not been there. -/
theorem C8_encode_error_containment (s : RecorderState) (frames : List Frame)
    (rid : Option Nat) (rest : List (EncodeTask × Bool)) :
    (lookupRecording s.active_recordings rid = none →
      encode_frames true s frames rid = (s, []) ∧
      encode_frames false s frames rid = (s, [])) ∧
    (encode_frames false s frames rid).1 = s ∧
    run_worker s ((EncodeTask.encodeFrames rid frames, false) :: rest) =
      run_worker s rest := by
  refine ⟨?_, ?_, ?_⟩
  · intro habs
    cases rid with
    | none => constructor <;> simp [encode_frames]
    | some id =>
      have hid : s.active_recordings id = none := habs
      constructor <;> simp [encode_frames, hid]
  · cases rid with
    | none => simp [encode_frames]
    | some id =>
      cases hid : s.active_recordings id with
      | none => simp [encode_frames, hid]
      | some rd => simp [encode_frames, hid]
  · have hfail : encode_frames false s frames rid = (s, []) := by
      cases rid with
      | none => simp [encode_frames]
      | some id =>
        cases hid : s.active_recordings id with
        | none => simp [encode_frames, hid]
        | some rd => simp [encode_frames, hid]
    simp [run_worker, process_task, hfail]

/-- C8 witness: a failing batch for live session 0 leaves its
`frame_count` at 9 and the next task (for the same session, succeeding)
is still processed, advancing the count to 11; a batch for the absent
session 3 is dropped silently. -/
theorem C8_encode_error_containment_witness :
    (encode_frames true
      ⟨false, [], 5, 30, (fun k => if k = 0 then some ⟨⟨2026, 1, 1, 0, 0, 0⟩, 9⟩ else none),
        1, none, []⟩ [70, 71] (some 3) =
      (⟨false, [], 5, 30, (fun k => if k = 0 then some ⟨⟨2026, 1, 1, 0, 0, 0⟩, 9⟩ else none),
        1, none, []⟩, [])) ∧
    ((run_worker
      ⟨false, [], 5, 30, (fun k => if k = 0 then some ⟨⟨2026, 1, 1, 0, 0, 0⟩, 9⟩ else none),
        1, none, []⟩
      [(EncodeTask.encodeFrames (some 0) [70, 71], false),
       (EncodeTask.encodeFrames (some 0) [72, 73], true)]).1.active_recordings 0 =
      some ⟨⟨2026, 1, 1, 0, 0, 0⟩, 11⟩) := by
  have h := C8_encode_error_containment
    ⟨false, [], 5, 30, (fun k => if k = 0 then some ⟨⟨2026, 1, 1, 0, 0, 0⟩, 9⟩ else none),
      1, none, []⟩ [70, 71] (some 3)
    [(EncodeTask.encodeFrames (some 0) [72, 73], true)]
  refine ⟨(h.1 (by simp [lookupRecording])).1, ?_⟩
  have h2 := C8_encode_error_containment
    ⟨false, [], 5, 30, (fun k => if k = 0 then some ⟨⟨2026, 1, 1, 0, 0, 0⟩, 9⟩ else none),
      1, none, []⟩ [70, 71] (some 0)
    [(EncodeTask.encodeFrames (some 0) [72, 73], true)]
  rw [h2.2.2]
  simp [run_worker, process_task, encode_frames, stampFrames]

/-- C9: `_finalize_recording` on a live session deletes it from the map
inside the first locked region, so the removal happens whether or not the
subsequent flush/close/write raises; a second finalize for the same id
finds nothing and is a no-op, a failed finalize produces no file and is
not retried, the worker loop survives a failing finalize, and a
successful one writes the file under the configured output directory with
the name `<tag>---YYYY-MM-DD---HH-MM-SS.<ext>` (tag `110bpm`, extension
`mp4`, zero-padded fields of the session's start wall-clock time). -/
theorem C9_finalize (s : RecorderState) (id : Nat) (rd : RecordingData)
    (ok ok2 : Bool) (rest : List (EncodeTask × Bool)) :
    (lookupRecording s.active_recordings (some id) = none →
      finalize_recording ok s (some id) = (s, none)) ∧
    (s.active_recordings id = some rd →
      (finalize_recording ok s (some id)).1.active_recordings id = none ∧
      (∀ k, k ≠ id → (finalize_recording ok s (some id)).1.active_recordings k =
        s.active_recordings k) ∧
      finalize_recording ok2 (finalize_recording ok s (some id)).1 (some id) =
        ((finalize_recording ok s (some id)).1, none) ∧
      (ok = true → (finalize_recording ok s (some id)).2 =
        some { path := video_file rd.start_time, frames_logged := rd.frame_count }) ∧
      (ok = false → (finalize_recording ok s (some id)).2 = none)) ∧
    (run_worker s ((EncodeTask.finalizeRecording (some id), false) :: rest) =
      run_worker (finalize_recording false s (some id)).1 rest) ∧
    (video_file rd.start_time = video_recordings_dir ++ "/" ++ "110bpm" ++ "---" ++
      (pad4 rd.start_time.year ++ "-" ++ pad2 rd.start_time.month ++ "-" ++
        pad2 rd.start_time.day) ++ "---" ++
      (pad2 rd.start_time.hour ++ "-" ++ pad2 rd.start_time.minute ++ "-" ++
        pad2 rd.start_time.second) ++ ".mp4") := by
  refine ⟨?_, ?_, ?_, ?_⟩
  · intro habs
    have hid : s.active_recordings id = none := habs
    cases ok <;> simp [finalize_recording, hid]
  · intro hid
    have hdel : (finalize_recording ok s (some id)).1.active_recordings =
        fun k => if k = id then none else s.active_recordings k := by
      cases ok <;> simp [finalize_recording, hid]
    refine ⟨by rw [hdel]; simp, ?_, ?_, ?_, ?_⟩
    · intro k hk
      rw [hdel]
      simp [hk]
    · have h2 : (finalize_recording ok s (some id)).1.active_recordings id = none := by
        rw [hdel]; simp
      generalize (finalize_recording ok s (some id)).1 = s1 at h2 ⊢
      cases ok2 <;> simp [finalize_recording, h2]
    · intro hok
      subst hok
      simp [finalize_recording, hid]
    · intro hok
      subst hok
      simp [finalize_recording, hid]
  · have hstate : (process_task false s (EncodeTask.finalizeRecording (some id))).2 = [] := by
      simp [process_task]
    simp [run_worker, process_task]
  · rw [video_file, strftime_session,
      show ("110bpm---" : String) = "110bpm" ++ "---" from rfl]
    simp only [String.append_assoc]

/-- C9 witness: finalizing live session 0 (started 2026-10-12 07:05:09,
120 frames) with a failing flush still removes it from the map and writes
nothing; a successful finalize yields the timestamped path. -/
theorem C9_finalize_witness :
    ((finalize_recording false
      ⟨false, [], 5, 30, (fun k => if k = 0 then some ⟨⟨2026, 10, 12, 7, 5, 9⟩, 120⟩ else none),
        1, none, []⟩ (some 0)).1.active_recordings 0 = none) ∧
    ((finalize_recording false
      ⟨false, [], 5, 30, (fun k => if k = 0 then some ⟨⟨2026, 10, 12, 7, 5, 9⟩, 120⟩ else none),
        1, none, []⟩ (some 0)).2 = none) ∧
    ((finalize_recording true
      ⟨false, [], 5, 30, (fun k => if k = 0 then some ⟨⟨2026, 10, 12, 7, 5, 9⟩, 120⟩ else none),
        1, none, []⟩ (some 0)).2 =
      some ⟨"C:/Users/shayan/Desktop/piano/video_recordings/110bpm---2026-10-12---07-05-09.mp4",
        120⟩) := by
  have hf := (C9_finalize
    ⟨false, [], 5, 30, (fun k => if k = 0 then some ⟨⟨2026, 10, 12, 7, 5, 9⟩, 120⟩ else none),
      1, none, []⟩ 0 ⟨⟨2026, 10, 12, 7, 5, 9⟩, 120⟩ false true []).2.1 (by simp)
  have ht := (C9_finalize
    ⟨false, [], 5, 30, (fun k => if k = 0 then some ⟨⟨2026, 10, 12, 7, 5, 9⟩, 120⟩ else none),
      1, none, []⟩ 0 ⟨⟨2026, 10, 12, 7, 5, 9⟩, 120⟩ true true []).2.1 (by simp)
  refine ⟨hf.1, hf.2.2.2.2 rfl, ?_⟩
  rw [ht.2.2.2.1 rfl]
  rfl


lemma framesFor_nil (n : Nat) : framesFor n [] = [] := rfl

lemma framesFor_append (n : Nat) (a b : List EncodeTask) :
    framesFor n (a ++ b) = framesFor n a ++ framesFor n b := by
  simp [framesFor]

lemma framesFor_enc_self (n : Nat) (L : List Frame) :
    framesFor n [EncodeTask.encodeFrames (some n) L] = L := by
  simp [framesFor]

lemma capture_step_recording_spec (s : RecorderState) (f : Frame) (n : Nat)
    (hrec : s.recording = true) (hcur : s.current_recording_id = some n)
    (hcap : 1 ≤ s.buffer_size) (_hlen : s.frame_buffer.length ≤ s.buffer_size) :
    (capture_step s f).recording = true ∧
    (capture_step s f).current_recording_id = some n ∧
    (capture_step s f).buffer_size = s.buffer_size ∧
    (capture_step s f).fps = s.fps ∧
    (capture_step s f).active_recordings = s.active_recordings ∧
    (capture_step s f).next_recording_id = s.next_recording_id ∧
    (capture_step s f).frame_buffer.length ≤ s.buffer_size ∧
    ∃ extra, (capture_step s f).encoding_queue = s.encoding_queue ++ extra ∧
      (∀ t ∈ extra, ∃ L, t = EncodeTask.encodeFrames (some n) L) ∧
      framesFor n extra ++ (capture_step s f).frame_buffer =
        s.frame_buffer ++ [f] := by
  by_cases hfull : s.buffer_size ≤ s.frame_buffer.length
  · have hne : s.frame_buffer.isEmpty = false := by
      cases hb : s.frame_buffer with
      | nil => rw [hb] at hfull; simp at hfull; omega
      | cons a l => simp [hb]
    have happ : dequeAppend s.buffer_size [] f = [f] := by
      have := dequeAppend_of_lt s.buffer_size [] f (by simpa using hcap)
      simpa using this
    have hstep : capture_step s f = { s with
        frame_buffer := [f],
        encoding_queue := s.encoding_queue ++
          [EncodeTask.encodeFrames s.current_recording_id s.frame_buffer] } := by
      simp [capture_step, hrec, hfull, hne, happ]
    rw [hstep]
    refine ⟨hrec, hcur, rfl, rfl, rfl, rfl, by simpa using hcap, ?_⟩
    refine ⟨[EncodeTask.encodeFrames (some n) s.frame_buffer], by rw [hcur], ?_, ?_⟩
    · intro t ht
      simp at ht
      exact ⟨s.frame_buffer, ht⟩
    · rw [framesFor_enc_self]
  · have hlt : s.frame_buffer.length < s.buffer_size := by omega
    have hstep : capture_step s f =
        { s with frame_buffer := dequeAppend s.buffer_size s.frame_buffer f } := by
      simp [capture_step, hfull]
    rw [hstep, dequeAppend_of_lt s.buffer_size s.frame_buffer f hlt]
    refine ⟨hrec, hcur, rfl, rfl, rfl, rfl, by simp; omega, [], by simp, ?_, ?_⟩
    · intro t ht
      simp at ht
    · rw [framesFor_nil, List.nil_append]

lemma capture_fold_recording_spec (F : List Frame) (s : RecorderState) (n : Nat)
    (hrec : s.recording = true) (hcur : s.current_recording_id = some n)
    (hcap : 1 ≤ s.buffer_size) (hlen : s.frame_buffer.length ≤ s.buffer_size) :
    (F.foldl capture_step s).recording = true ∧
    (F.foldl capture_step s).current_recording_id = some n ∧
    (F.foldl capture_step s).buffer_size = s.buffer_size ∧
    (F.foldl capture_step s).fps = s.fps ∧
    (F.foldl capture_step s).active_recordings = s.active_recordings ∧
    (F.foldl capture_step s).next_recording_id = s.next_recording_id ∧
    (F.foldl capture_step s).frame_buffer.length ≤ s.buffer_size ∧
    ∃ extra, (F.foldl capture_step s).encoding_queue = s.encoding_queue ++ extra ∧
      (∀ t ∈ extra, ∃ L, t = EncodeTask.encodeFrames (some n) L) ∧
      framesFor n extra ++ (F.foldl capture_step s).frame_buffer =
        s.frame_buffer ++ F := by
  induction F generalizing s with
  | nil =>
    exact ⟨hrec, hcur, rfl, rfl, rfl, rfl, hlen, [], by simp, by intro t ht; simp at ht,
      by simp [framesFor_nil]⟩
  | cons f F ih =>
    obtain ⟨h1, h2, h3, h4, h5, h6, h7, e1, hq1, hall1, hfr1⟩ :=
      capture_step_recording_spec s f n hrec hcur hcap hlen
    obtain ⟨g1, g2, g3, g4, g5, g6, g7, e2, hq2, hall2, hfr2⟩ :=
      ih (capture_step s f) h1 h2 (by rw [h3]; exact hcap) (by rw [h3]; exact h7)
    rw [List.foldl_cons] at *
    refine ⟨g1, g2, by rw [g3, h3], by rw [g4, h4], by rw [g5, h5],
      by rw [g6, h6], by rw [h3] at g7; exact g7, e1 ++ e2, ?_, ?_, ?_⟩
    · rw [hq2, hq1, List.append_assoc]
    · intro t ht
      rcases List.mem_append.mp ht with h | h
      · exact hall1 t h
      · exact hall2 t h
    · rw [framesFor_append, List.append_assoc, hfr2, ← List.append_assoc, hfr1,
        List.append_assoc, List.singleton_append]

lemma framesFor_cons_enc (n : Nat) (L : List Frame) (rest : List EncodeTask) :
    framesFor n (EncodeTask.encodeFrames (some n) L :: rest) =
      L ++ framesFor n rest := by
  simp [framesFor]

lemma stampFrames_tagged (fps c n : Nat) (L : List Frame) :
    (((stampFrames fps c L).map fun st => (n, st)).map fun p => p.2.frame) = L ∧
    (((stampFrames fps c L).map fun st => (n, st)).map fun p => p.2.pts) =
      (List.range L.length).map (c + .) ∧
    (((stampFrames fps c L).map fun st => (n, st)).map fun p =>
        (p.1, p.2.tb_num, p.2.tb_den)) =
      List.replicate L.length (n, 1, fps) := by
  unfold stampFrames
  refine ⟨?_, ?_, ?_⟩ <;> rw [List.map_map, List.map_map]
  · show List.map Prod.snd L.enum = L
    exact List.enum_map_snd L
  · show List.map ((c + .) ∘ Prod.fst) L.enum = (List.range L.length).map (c + .)
    rw [← List.map_map, List.enum_map_fst]
  · show List.map (fun _ : Nat × Frame => (n, 1, fps)) L.enum =
      List.replicate L.length (n, 1, fps)
    rw [List.map_const']
    simp

lemma run_worker_append (s : RecorderState) (a b : List (EncodeTask × Bool)) :
    run_worker s (a ++ b) =
      ((run_worker (run_worker s a).1 b).1,
       (run_worker s a).2 ++ (run_worker (run_worker s a).1 b).2) := by
  induction a generalizing s with
  | nil => simp [run_worker]
  | cons p rest ih =>
    obtain ⟨t, ok⟩ := p
    simp [run_worker, ih]

lemma encode_frames_success (s : RecorderState) (L : List Frame) (n : Nat)
    (rd : RecordingData) (hne : L.isEmpty = false)
    (hmap : s.active_recordings n = some rd) :
    encode_frames true s L (some n) =
      ({ s with active_recordings := fun k =>
          (if k = n then some ⟨rd.start_time, rd.frame_count + L.length⟩
           else s.active_recordings k) },
       (stampFrames s.fps rd.frame_count L).map fun st => (n, st)) := by
  simp [encode_frames, hne, hmap]

lemma run_worker_encodes (n : Nat) (tasks : List EncodeTask)
    (s : RecorderState) (rd : RecordingData)
    (hall : ∀ t ∈ tasks, ∃ L, t = EncodeTask.encodeFrames (some n) L)
    (hmap : s.active_recordings n = some rd) :
    ((run_worker s (tasks.map fun t => (t, true))).2.map fun p => p.2.frame) =
      framesFor n tasks ∧
    ((run_worker s (tasks.map fun t => (t, true))).2.map fun p => p.2.pts) =
      (List.range (framesFor n tasks).length).map (rd.frame_count + .) ∧
    ((run_worker s (tasks.map fun t => (t, true))).2.map fun p =>
        (p.1, p.2.tb_num, p.2.tb_den)) =
      List.replicate (framesFor n tasks).length (n, 1, s.fps) := by
  induction tasks generalizing s rd with
  | nil => simp [run_worker, framesFor_nil]
  | cons t rest ih =>
    obtain ⟨L, rfl⟩ := hall t (List.mem_cons_self t rest)
    have hrest : ∀ t' ∈ rest, ∃ L', t' = EncodeTask.encodeFrames (some n) L' :=
      fun t' ht' => hall t' (List.mem_cons_of_mem _ ht')
    rw [framesFor_cons_enc]
    by_cases hL : L.isEmpty
    · have hLnil : L = [] := List.isEmpty_iff.mp hL
      subst hLnil
      have henc : encode_frames true s [] (some n) = (s, []) := by
        simp [encode_frames]
      have ihr := ih s rd hrest hmap
      simpa [run_worker, process_task, henc] using ihr
    · have hne : L.isEmpty = false := by simpa using hL
      have henc := encode_frames_success s L n rd hne hmap
      set s1 : RecorderState := { s with active_recordings := fun k =>
        (if k = n then some ⟨rd.start_time, rd.frame_count + L.length⟩
         else s.active_recordings k) } with hs1
      have hmap1 : s1.active_recordings n =
          some ⟨rd.start_time, rd.frame_count + L.length⟩ := by
        rw [hs1]
        simp
      have ihr := ih s1 ⟨rd.start_time, rd.frame_count + L.length⟩ hrest hmap1
      dsimp only at ihr
      have hstep : run_worker s
          ((EncodeTask.encodeFrames (some n) L :: rest).map fun t => (t, true)) =
          ((run_worker s1 (rest.map fun t => (t, true))).1,
           ((stampFrames s.fps rd.frame_count L).map fun st => (n, st)) ++
             (run_worker s1 (rest.map fun t => (t, true))).2) := by
        simp [run_worker, process_task, henc]
      rw [hstep]
      have hst := stampFrames_tagged s.fps rd.frame_count n L
      refine ⟨?_, ?_, ?_⟩ <;> simp only [List.map_append]
      · rw [hst.1, ihr.1]
      · rw [hst.2.1, ihr.2.1, List.length_append, List.range_add, List.map_append,
          List.map_map]
        have hfun : ((rd.frame_count + .) ∘ (L.length + .)) =
            ((rd.frame_count + L.length) + .) := by
          funext i
          simp [Function.comp_apply]
          omega
        rw [hfun]
      · rw [hst.2.2, ihr.2.2, List.length_append, List.replicate_add]

/-- C1: no frame loss across the start boundary.  Starting a session on
an idle recorder (drained task queue, positive capacity), capturing any
live frames `F`, stopping, and then letting the encode worker drain the
queue muxes exactly the pre-roll frames followed by the live frames, in
order; the worker assigns presentation timestamps `pts = frameCount + i`
at time base `1/fps`, which over the whole session come out as
`0, 1, 2, ...` — strictly increasing with no gaps across successive
batches (frameCount advances by each batch's length) — and every muxed
frame belongs to the new session's id. -/
theorem C1_no_frame_loss (s : RecorderState) (d : DateTime) (F : List Frame)
    (hrec : s.recording = false) (hq : s.encoding_queue = [])
    (hcap : 1 ≤ s.buffer_size) :
    ((session_mux_output (record_session_run d s F)).map fun p => p.2.frame) =
      s.frame_buffer ++ F ∧
    ((session_mux_output (record_session_run d s F)).map fun p => p.2.pts) =
      List.range (s.frame_buffer.length + F.length) ∧
    ((session_mux_output (record_session_run d s F)).map fun p =>
        (p.1, p.2.tb_num, p.2.tb_den)) =
      List.replicate (s.frame_buffer.length + F.length)
        (s.next_recording_id, 1, s.fps) := by
  have hstart := start_recording_spec s d hrec
  have h1rec : (start_recording d s).recording = true := hstart.2.2.2.2.1
  have h1cur : (start_recording d s).current_recording_id =
      some s.next_recording_id := hstart.2.2.2.2.2.1
  have h1buf : (start_recording d s).frame_buffer = [] := hstart.2.2.2.2.2.2.1
  have h1map : (start_recording d s).active_recordings s.next_recording_id =
      some ⟨d, 0⟩ := hstart.2.2.2.2.2.2.2.1
  have h1fps : (start_recording d s).fps = s.fps :=
    hstart.2.2.2.2.2.2.2.2.2.2.2.1
  have h1bs : (start_recording d s).buffer_size = s.buffer_size :=
    hstart.2.2.2.2.2.2.2.2.2.2.2.2
  have hq1 : (∀ t ∈ (start_recording d s).encoding_queue,
      ∃ L, t = EncodeTask.encodeFrames (some s.next_recording_id) L) ∧
      framesFor s.next_recording_id (start_recording d s).encoding_queue =
        s.frame_buffer := by
    by_cases hB : s.frame_buffer = []
    · have hqe := hstart.2.2.2.2.2.2.2.2.2.2.1 hB
      rw [hqe, hq]
      exact ⟨by intro t ht; simp at ht, by rw [framesFor_nil, hB]⟩
    · have hqe := hstart.2.2.2.2.2.2.2.2.2.1 hB
      rw [hqe, hq, List.nil_append]
      refine ⟨?_, framesFor_enc_self _ _⟩
      intro t ht
      simp at ht
      exact ⟨s.frame_buffer, ht⟩
  obtain ⟨h2rec, h2cur, h2bs, h2fps, h2map, h2next, h2len, extra, h2q, hall2, hfr2⟩ :=
    capture_fold_recording_spec F (start_recording d s) s.next_recording_id
      h1rec h1cur (by rw [h1bs]; exact hcap) (by rw [h1buf]; simp)
  have hstop := stop_recording_spec (F.foldl capture_step (start_recording d s)) h2rec
  have hflush : ∃ flush,
      (stop_recording (F.foldl capture_step (start_recording d s))).encoding_queue =
        ((F.foldl capture_step (start_recording d s)).encoding_queue ++ flush) ++
          [EncodeTask.finalizeRecording (some s.next_recording_id)] ∧
      (∀ t ∈ flush, ∃ L, t = EncodeTask.encodeFrames (some s.next_recording_id) L) ∧
      framesFor s.next_recording_id flush =
        (F.foldl capture_step (start_recording d s)).frame_buffer := by
    by_cases h2b : (F.foldl capture_step (start_recording d s)).frame_buffer = []
    · refine ⟨[], ?_, by intro t ht; simp at ht, by rw [framesFor_nil, h2b]⟩
      rw [hstop.2.2.2.1 h2b, h2cur]
      simp
    · refine ⟨[EncodeTask.encodeFrames (some s.next_recording_id)
        (F.foldl capture_step (start_recording d s)).frame_buffer], ?_, ?_,
        framesFor_enc_self _ _⟩
      · rw [hstop.2.2.1 h2b, h2cur]
        simp
      · intro t ht
        simp at ht
        exact ⟨_, ht⟩
  obtain ⟨flush, hq3, hallf, hfrf⟩ := hflush
  have hallenc : ∀ t ∈ (F.foldl capture_step (start_recording d s)).encoding_queue
      ++ flush, ∃ L, t = EncodeTask.encodeFrames (some s.next_recording_id) L := by
    intro t ht
    rcases List.mem_append.mp ht with h | h
    · rw [h2q] at h
      rcases List.mem_append.mp h with h' | h'
      · exact hq1.1 t h'
      · exact hall2 t h'
    · exact hallf t h
  have hfrenc : framesFor s.next_recording_id
      ((F.foldl capture_step (start_recording d s)).encoding_queue ++ flush) =
      s.frame_buffer ++ F := by
    rw [framesFor_append, hfrf, h2q, framesFor_append, hq1.2, List.append_assoc,
      hfr2, h1buf, List.nil_append]
  have hmap3 : (stop_recording (F.foldl capture_step
      (start_recording d s))).active_recordings s.next_recording_id =
      some ⟨d, 0⟩ := by
    rw [hstop.2.2.2.2.2.1, h2map]
    exact h1map
  have hworker := run_worker_encodes s.next_recording_id
    ((F.foldl capture_step (start_recording d s)).encoding_queue ++ flush)
    (stop_recording (F.foldl capture_step (start_recording d s)))
    ⟨d, 0⟩ hallenc hmap3
  have hlen_enc : (framesFor s.next_recording_id
      ((F.foldl capture_step (start_recording d s)).encoding_queue ++ flush)).length =
      s.frame_buffer.length + F.length := by
    rw [hfrenc, List.length_append]
  have hout : session_mux_output (record_session_run d s F) =
      (run_worker (stop_recording (F.foldl capture_step (start_recording d s)))
        (((F.foldl capture_step (start_recording d s)).encoding_queue ++
          flush).map fun t => (t, true))).2 := by
    unfold session_mux_output record_session_run
    rw [hq3, List.map_append, run_worker_append]
    have hfin : ∀ s' : RecorderState,
        (run_worker s' ([EncodeTask.finalizeRecording
          (some s.next_recording_id)].map fun t => (t, true))).2 = [] := by
      intro s'
      simp [run_worker, process_task]
    rw [hfin, List.append_nil]
  have hfps3 : (stop_recording (F.foldl capture_step
      (start_recording d s))).fps = s.fps := by
    rw [hstop.2.2.2.2.2.2.2.1, h2fps, h1fps]
  refine ⟨?_, ?_, ?_⟩
  · rw [hout, hworker.1, hfrenc]
  · rw [hout, hworker.2.1, hlen_enc]
    have hzero : ((RecordingData.frame_count ⟨d, 0⟩ : Nat) + .) = fun x : Nat => x := by
      funext x
      simp
    rw [hzero]
    simp
  · rw [hout, hworker.2.2, hlen_enc, hfps3]

/-- C1 witness: capacity 2, pre-roll `[10, 11]`, live frames
`[20, 21, 22]` (one mid-run drain): the session's muxed output is
`[10, 11, 20, 21, 22]` with pts `0..4` at time base `1/30`, all tagged
with the fresh session id 0. -/
theorem C1_no_frame_loss_witness :
    ((session_mux_output (record_session_run ⟨2026, 10, 12, 1, 2, 3⟩
        ⟨false, [10, 11], 2, 30, (fun _ => none), 0, none, []⟩
        [20, 21, 22])).map fun p => p.2.frame) = [10, 11, 20, 21, 22] ∧
    ((session_mux_output (record_session_run ⟨2026, 10, 12, 1, 2, 3⟩
        ⟨false, [10, 11], 2, 30, (fun _ => none), 0, none, []⟩
        [20, 21, 22])).map fun p => p.2.pts) = [0, 1, 2, 3, 4] ∧
    ((session_mux_output (record_session_run ⟨2026, 10, 12, 1, 2, 3⟩
        ⟨false, [10, 11], 2, 30, (fun _ => none), 0, none, []⟩
        [20, 21, 22])).map fun p => (p.1, p.2.tb_num, p.2.tb_den)) =
      [(0, 1, 30), (0, 1, 30), (0, 1, 30), (0, 1, 30), (0, 1, 30)] := by
  have h := C1_no_frame_loss
    ⟨false, [10, 11], 2, 30, (fun _ => none), 0, none, []⟩
    ⟨2026, 10, 12, 1, 2, 3⟩ [20, 21, 22] rfl rfl (by decide)
  refine ⟨by simpa using h.1, by simpa using h.2.1, by simpa using h.2.2⟩
